import Mathlib

/-!
Verification of the Death-Dashboard filtering-and-aggregation core.

The definitions below are a shallow embedding of the Python sources
(`app.py`, `app1.1.py`, `app_1.2.py`, `main.py`).  Calendar dates are
day numbers (`Nat`); a pandas `NaT` / `NaN` cell is `Option.none`;
numeric (float) arithmetic on counts and ages is exact here, so `ℚ`
stands in for floats.  Each definition's doc string names the source
lines it embeds.
-/

namespace DeathDashboard

/-- One row of the loaded DataFrame.  `reported_date` is `none` for `NaT`
(unparsable input, `pd.to_datetime(..., errors="coerce")`), `age` is `none`
for `NaN` (`pd.to_numeric(..., errors="coerce")`), `state` / `gender` are
`none` for missing cells, and `verified` is `none` when the column was
present in the input batch but this row lacked a value. -/
structure Record where
  reported_date : Option Nat
  state : Option String
  gender : Option String
  age : Option ℚ
  verified : Option Bool
  deriving Repr, DecidableEq

/-- The analyst's current selection, as read from the sidebar widgets of
`app.py` / `app1.1.py` / `app_1.2.py`: date interval, multiselect state
list, verified-only checkbox, age slider, and (app_1.2.py only) the
gender multiselect. -/
structure FilterSpec where
  start : Nat
  stop : Nat
  states : List String
  verifiedOnly : Bool
  ageLo : ℚ
  ageHi : ℚ
  genders : List String
  deriving Repr, DecidableEq

/-- The filter mask of `app.py` lines 40-48 (= `app1.1.py` 61-69,
`app_1.2.py` 112-122).  The `reported_date` and `age` columns are present
in the batch, so their `if column in df.columns` guards are taken and the
two range predicates are applied unconditionally; a `NaT` date or `NaN`
age compares `False` against both bounds in pandas, hence the `none`
branches below.  `if selected_states:` skips the state predicate when the
selected list is empty, and likewise for genders; `isin` is `False` on a
missing cell.  `df["verified"] == True` is `False` on a `NaN` cell. -/
def recordMask (spec : FilterSpec) (r : Record) : Bool :=
  (match r.reported_date with
   | none => false
   | some d => decide (spec.start ≤ d) && decide (d ≤ spec.stop)) &&
  (if spec.states.isEmpty then true
   else match r.state with
     | none => false
     | some s => decide (s ∈ spec.states)) &&
  (if spec.verifiedOnly then decide (r.verified = some true) else true) &&
  (match r.age with
   | none => false
   | some a => decide (spec.ageLo ≤ a) && decide (a ≤ spec.ageHi)) &&
  (if spec.genders.isEmpty then true
   else match r.gender with
     | none => false
     | some g => decide (g ∈ spec.genders))

/-- `fdf = df[mask]` (`app.py` line 50, `main.py` line 84): the filtered
view keeps exactly the rows satisfying the mask, in batch order. -/
def filterRecords (store : List Record) (spec : FilterSpec) : List Record :=
  store.filter (recordMask spec)

/-- The mask of `recordMask` with the state conjunct removed, used to
describe what the code computes when `selected_states` is empty. -/
def recordMaskNoState (spec : FilterSpec) (r : Record) : Bool :=
  (match r.reported_date with
   | none => false
   | some d => decide (spec.start ≤ d) && decide (d ≤ spec.stop)) &&
  (if spec.verifiedOnly then decide (r.verified = some true) else true) &&
  (match r.age with
   | none => false
   | some a => decide (spec.ageLo ≤ a) && decide (a ≤ spec.ageHi)) &&
  (if spec.genders.isEmpty then true
   else match r.gender with
     | none => false
     | some g => decide (g ∈ spec.genders))

/-- Modelled from the spec: the repository has no checked filter entry
point; §4.1 and §7 describe a `ConfigError` raised for an inverted date
range before any aggregation runs.  This definition follows the spec's
words, for comparison with the code's `filterRecords`. -/
inductive ConfigError where
  | invertedDateRange
  deriving Repr, DecidableEq

/-- Modelled from the spec: `apply(store, spec)` rejecting a malformed
FilterSpec (`spec.start > spec.end`) with a `ConfigError` instead of
filtering. -/
def applyChecked (store : List Record) (spec : FilterSpec) :
    Except ConfigError (List Record) :=
  if spec.start > spec.stop then .error .invertedDateRange
  else .ok (filterRecords store spec)

/-- `groupby("date_only").size()` evaluated at one date: the number of
records of the view whose reported date is exactly `d`
(`app1.1.py` line 123). -/
def countOnDate (view : List Record) (d : Nat) : Nat :=
  (view.filter (fun r => r.reported_date = some d)).length

/-- The daily series of `app1.1.py` lines 123-128: group the view by
date, then `reindex` over `pd.date_range(start, end)` with
`fill_value=0`, yielding one `(date, count)` pair per calendar date of
`[start, stop]` in order (empty when `start > stop`, exactly as
`pd.date_range` is then empty). -/
def dailySeries (view : List Record) (start stop : Nat) : List (Nat × Nat) :=
  (List.range (stop + 1 - start)).map (fun i => (start + i, countOnDate view (start + i)))

/-- Mean of a rational list, `0` on the empty list (division by zero). -/
def meanQ (xs : List ℚ) : ℚ :=
  xs.sum / (xs.length : ℚ)

/-- `series.rolling(window=w, min_periods=1).mean()` (`app1.1.py` line
131, `main.py` line 151, `app_1.2.py` lines 172-173): position `i` holds
the mean of the trailing window `series[max(0, i-w+1) .. i]`, expressed
here as `take (i+1)` then `drop (i+1-w)` (the `Nat` truncation of
`i+1-w` is the left clip). -/
def rollingMean (xs : List ℚ) (w : Nat) : List ℚ :=
  (List.range xs.length).map (fun i => meanQ ((xs.take (i + 1)).drop (i + 1 - w)))

/-- Sample variance with the pandas default `ddof=1` denominator `n-1`,
`0` for lists of length `≤ 1` (division by zero). -/
def sampleVar (xs : List ℚ) : ℚ :=
  (xs.map (fun x => (x - meanQ xs) ^ 2)).sum / ((xs.length : ℚ) - 1)

/-- `daily["count"].std()` guarded by `if ... > 0 else 0` (`app1.1.py`
line 135): the sample standard deviation, with the length `< 2` case
(where pandas yields `NaN`, which fails the `> 0` guard) sent to `0`. -/
noncomputable def sampleStd (xs : List ℚ) : ℝ :=
  if xs.length < 2 then 0 else Real.sqrt (sampleVar xs)

/-- `threshold = global_mean + 2 * global_std` (`app1.1.py` lines
134-136). -/
noncomputable def anomalyThreshold (xs : List ℚ) : ℝ :=
  (meanQ xs : ℝ) + 2 * sampleStd xs

/-- `daily["anomaly"] = daily["count"] > threshold` (`app1.1.py` line
137) at position `i`. -/
def anomalous (xs : List ℚ) (i : Nat) : Prop :=
  ((xs.getD i 0 : ℚ) : ℝ) > anomalyThreshold xs

/-- `compute_latest_dod` (`app1.1.py` lines 86-93): `None` for fewer
than two points, `None` when the second-to-last point is `0`, else the
percentage change of the last point against the second-to-last. -/
def computeLatestDod (xs : List ℚ) : Option ℚ :=
  if xs.length < 2 then none
  else
    let last := xs.getD (xs.length - 1) 0
    let prev := xs.getD (xs.length - 2) 0
    if prev = 0 then none
    else some ((last - prev) / prev * 100)

/-- `fdf["state"].value_counts()` evaluated at one state: the number of
records of the view whose state is exactly `s`. -/
def stateCount (view : List Record) (s : String) : Nat :=
  (view.filter (fun r => r.state = some s)).length

/-- The distinct non-missing states of the view (`value_counts` drops
`NaN`). -/
def distinctStates (view : List Record) : List String :=
  (view.filterMap (fun r => r.state)).dedup

/-- `fdf["state"].value_counts().nlargest(top_n).index`
(`app1.1.py` lines 188-189): the `n` states with the highest total
count in the view, largest first. -/
def topStates (view : List Record) (n : Nat) : List String :=
  ((distinctStates view).insertionSort
    (fun a b => stateCount view b ≤ stateCount view a)).take n

/-- `groupby(["date_only","state"]).size()` evaluated at one cell: the
number of records of the view with state `s` on date `d`
(`app1.1.py` line 192). -/
def countStateDate (view : List Record) (s : String) (d : Nat) : Nat :=
  (view.filter (fun r => r.state = some s && r.reported_date = some d)).length

/-- The top-states multi-series of `app1.1.py` lines 188-199: one
zero-filled daily series per top state, the `pivot` reindexed over
`pd.date_range(start, end)` with `fill_value=0`, so every series runs
over the same `[start, stop]` axis. -/
def topCategoriesOverTime (view : List Record) (n : Nat) (start stop : Nat) :
    List (String × List (Nat × Nat)) :=
  (topStates view n).map (fun s =>
    (s, (List.range (stop + 1 - start)).map
      (fun i => (start + i, countStateDate view s (start + i)))))

/-- The `verified` normalization of `load_data` (`app.py` lines 14-15,
`main.py` lines 24-25) on the `verified` column of the raw batch: a cell
is `none` when that input record lacked the key.  The column is absent
from `pd.DataFrame(arr)` exactly when every input record lacks the key;
only then does `df["verified"] = False` fill the whole column, otherwise
the column (missing cells included) is kept as loaded. -/
def loadVerifiedColumn (col : List (Option Bool)) : List (Option Bool) :=
  if col.all (fun v => v = none) then col.map (fun _ => some false) else col

/-! ### Helper lemmas -/

/-- Indexing a map over `List.range`: position `i < n` holds `f i`. -/
theorem getD_map_range {α : Type} (n i : Nat) (f : Nat → α) (d : α) (h : i < n) :
    ((List.range n).map f).getD i d = f i := by
  rw [List.getD_eq_getElem _ _ (by simpa using h)]
  simp

/-- A list whose members are all `c` sums to `length * c`. -/
theorem sum_of_all_eq (xs : List ℚ) (c : ℚ) (h : ∀ x ∈ xs, x = c) :
    xs.sum = xs.length * c := by
  induction xs with
  | nil => simp
  | cons a l ih =>
    have ha : a = c := h a (List.mem_cons_self a l)
    have hl : l.sum = l.length * c := ih (fun x hx => h x (List.mem_cons_of_mem a hx))
    simp only [List.sum_cons, List.length_cons, ha, hl]
    push_cast
    ring

/-- The mean of a nonempty constant list is the constant. -/
theorem meanQ_of_all_eq (xs : List ℚ) (c : ℚ) (h : ∀ x ∈ xs, x = c)
    (hne : xs ≠ []) : meanQ xs = c := by
  have hlen : (xs.length : ℚ) ≠ 0 := by
    simpa using List.length_pos.mpr hne |>.ne.symm
  rw [meanQ, sum_of_all_eq xs c h]
  field_simp

/-! ### C8 -/

/-- C8: the filtered view is a sublist of the store (so its record set is
a subset of the full batch and `|filtered view| ≤ |full store|`), and
filtering the already-filtered view with the same spec changes
nothing. -/
theorem filterRecords_subset_idempotent (store : List Record) (spec : FilterSpec) :
    (filterRecords store spec).length ≤ store.length ∧
    filterRecords store spec ⊆ store ∧
    filterRecords (filterRecords store spec) spec = filterRecords store spec := by
  refine ⟨List.length_filter_le _ _, fun x hx => (List.mem_filter.mp hx).1, ?_⟩
  simp [filterRecords, List.filter_filter]

/-! ### C2 -/

/-- C2 counterexample: on a one-record store and an inverted date
interval (`start = 10 > 0 = end`), the code raises nothing: the filter
silently returns the empty view, whereas the spec-modelled checked
filter rejects the spec with a `ConfigError` before filtering. -/
theorem inverted_range_not_rejected :
    filterRecords [⟨some 5, some "A", some "M", some 30, some false⟩]
      ⟨10, 0, [], false, 0, 100, []⟩ = [] ∧
    applyChecked [⟨some 5, some "A", some "M", some 30, some false⟩]
      ⟨10, 0, [], false, 0, 100, []⟩ = .error .invertedDateRange := by
  constructor <;> rfl

/-- C2 as amended: a FilterSpec with `start > end` is never rejected;
the two date bounds are jointly unsatisfiable, so the filter silently
returns the empty view for every store. -/
theorem inverted_range_silently_empty (store : List Record) (spec : FilterSpec)
    (h : spec.stop < spec.start) : filterRecords store spec = [] := by
  rw [filterRecords, List.filter_eq_nil_iff]
  intro r _
  have h1 : (match r.reported_date with
      | none => false
      | some d => decide (spec.start ≤ d) && decide (d ≤ spec.stop)) = false := by
    cases hd : r.reported_date with
    | none => rfl
    | some d =>
      have h2 : ¬ (d ≤ spec.stop) ∨ ¬ (spec.start ≤ d) := by omega
      rcases h2 with h2 | h2 <;> simp [h2]
  simp [recordMask, h1]

/-- C2 amended, evaluated: the inverted interval `[10, 0]` on a
one-record store yields the empty view. -/
theorem inverted_range_silently_empty_witness :
    filterRecords [⟨some 7, some "B", some "F", some 41, some true⟩]
      ⟨10, 0, ["B"], true, 0, 100, []⟩ = [] :=
  inverted_range_silently_empty _ _ (by decide)

/-! ### C1 -/

/-- C1 counterexample: a store holding one in-range record and a spec
whose accepted-state set is empty.  Were the empty set treated as "none
selected" the filtered view would be empty; instead the code silently
drops the state predicate and returns the whole store. -/
theorem empty_states_not_none_selected :
    filterRecords [⟨some 5, some "A", some "M", some 30, some false⟩]
      ⟨0, 10, [], false, 0, 100, []⟩ =
      [⟨some 5, some "A", some "M", some 30, some false⟩] ∧
    filterRecords [⟨some 5, some "A", some "M", some 30, some false⟩]
      ⟨0, 10, [], false, 0, 100, []⟩ ≠ [] := by
  constructor
  · rfl
  · decide

/-- C1 as amended: an empty accepted-state set is treated as "no
restriction": the `if selected_states:` guard skips the state predicate
entirely, so the filtered view is exactly the store filtered by the
remaining predicates (date, verified, age, gender). -/
theorem empty_states_means_no_restriction (store : List Record) (spec : FilterSpec)
    (h : spec.states = []) :
    filterRecords store spec = store.filter (recordMaskNoState spec) := by
  unfold filterRecords
  congr 1
  funext r
  simp [recordMask, recordMaskNoState, h, Bool.and_assoc]

/-- C1 amended, evaluated: with an empty state selection the filter on a
one-record store coincides with the state-free mask. -/
theorem empty_states_means_no_restriction_witness :
    filterRecords [⟨some 5, some "A", some "M", some 30, some false⟩]
      ⟨0, 10, [], false, 0, 100, []⟩ =
    List.filter (recordMaskNoState ⟨0, 10, [], false, 0, 100, []⟩)
      [⟨some 5, some "A", some "M", some 30, some false⟩] :=
  empty_states_means_no_restriction _ _ rfl

/-! ### C9 -/

/-- C9 counterexample: a batch of two raw records, the first carrying
`verified = true` and the second lacking the value.  The column is
present, so the `if "verified" not in df.columns` default never runs:
the second record keeps its missing marker instead of becoming
`false` (and so is not a boolean after loading). -/
theorem verified_default_not_per_record :
    loadVerifiedColumn [some true, none] = [some true, none] ∧
    (none : Option Bool) ≠ some false := by
  constructor
  · rfl
  · decide

/-- C9 as amended: the `false` default applies only column-wide.  When
every raw record lacks a `verified` value (the column is absent from
the DataFrame) each record's `verified` becomes `false`; as soon as one
record carries a value the column is kept unchanged, per-record missing
values included. -/
theorem verified_default_column_level (col : List (Option Bool)) :
    ((∀ v ∈ col, v = none) →
      loadVerifiedColumn col = col.map (fun _ => some false)) ∧
    ((∃ v ∈ col, v ≠ none) → loadVerifiedColumn col = col) := by
  constructor
  · intro h
    rw [loadVerifiedColumn, if_pos]
    simpa [List.all_eq_true] using h
  · rintro ⟨v, hv, hne⟩
    rw [loadVerifiedColumn, if_neg]
    simp only [List.all_eq_true, decide_eq_true_eq]
    intro hall
    exact hne (hall v hv)

/-- C9 amended, evaluated: an all-missing column is filled with `false`;
a column with one value present keeps its missing cell. -/
theorem verified_default_column_level_witness :
    loadVerifiedColumn [none, none] =
      List.map (fun _ => some false) [(none : Option Bool), none] ∧
    loadVerifiedColumn [some true, none] = [some true, none] :=
  ⟨(verified_default_column_level [none, none]).1 (by decide),
   (verified_default_column_level [some true, none]).2 ⟨some true, by decide, by decide⟩⟩

/-! ### C10 -/

/-- C10: the age column being present, the inclusive age-range conjunct
of the mask is applied unconditionally; a record whose age is missing
(`NaN` after `pd.to_numeric(..., errors="coerce")`) fails the mask
outright, so every record of the filtered view carries a non-missing
age within the bounds — missing-age records are excluded from every
downstream aggregate computed on the view, categorical ones included. -/
theorem filtered_records_have_age (store : List Record) (spec : FilterSpec)
    (r : Record) :
    (r.age = none → recordMask spec r = false) ∧
    (r ∈ filterRecords store spec →
      r.age ≠ none ∧ ∃ a, r.age = some a ∧ spec.ageLo ≤ a ∧ a ≤ spec.ageHi) := by
  constructor
  · intro h
    simp [recordMask, h]
  · intro hr
    have hm : recordMask spec r = true := (List.mem_filter.mp hr).2
    simp only [recordMask, Bool.and_eq_true] at hm
    obtain ⟨⟨-, hage⟩, -⟩ := hm
    cases ha : r.age with
    | none => rw [ha] at hage; simp at hage
    | some a =>
      rw [ha] at hage
      simp only [Bool.and_eq_true, decide_eq_true_eq] at hage
      exact ⟨by simp [ha], a, rfl, hage.1, hage.2⟩

/-- C10, evaluated: the record with `age = none` fails the mask, and the
record the filter keeps has a bounded age. -/
theorem filtered_records_have_age_witness :
    (recordMask ⟨0, 10, [], false, 0, 100, []⟩
      ⟨some 5, some "A", some "M", none, some false⟩ = false) ∧
    ((⟨some 5, some "A", some "M", some 30, some false⟩ : Record).age ≠ none ∧
      ∃ a, (⟨some 5, some "A", some "M", some 30, some false⟩ : Record).age = some a ∧
        (0 : ℚ) ≤ a ∧ a ≤ 100) :=
  ⟨(filtered_records_have_age [] ⟨0, 10, [], false, 0, 100, []⟩ _).1 rfl,
   (filtered_records_have_age [⟨some 5, some "A", some "M", some 30, some false⟩]
      ⟨0, 10, [], false, 0, 100, []⟩ _).2 (by decide)⟩

/-! ### C6 -/

/-- C6: the day-over-day change is `none` ("not available") for a series
of fewer than two points and for a series whose second-to-last value is
`0`; otherwise it is the percentage change of the last point against
the second-to-last, `(last - prev) / prev * 100`. -/
theorem computeLatestDod_spec (xs : List ℚ) :
    (xs.length < 2 → computeLatestDod xs = none) ∧
    (2 ≤ xs.length → xs.getD (xs.length - 2) 0 = 0 → computeLatestDod xs = none) ∧
    (2 ≤ xs.length → xs.getD (xs.length - 2) 0 ≠ 0 →
      computeLatestDod xs =
        some ((xs.getD (xs.length - 1) 0 - xs.getD (xs.length - 2) 0) /
          xs.getD (xs.length - 2) 0 * 100)) := by
  refine ⟨fun h => ?_, fun h hz => ?_, fun h hz => ?_⟩
  · simp [computeLatestDod, h]
  · rw [computeLatestDod, if_neg (by omega)]
    simp only [List.getD_eq_getElem?_getD] at hz ⊢
    simp [hz]
  · rw [computeLatestDod, if_neg (by omega)]
    simp only [List.getD_eq_getElem?_getD] at hz ⊢
    simp [hz]

/-- C6, evaluated: the empty series and a series with zero second-to-last
value report `none`; `[1, 3]` reports `some 200`. -/
theorem computeLatestDod_spec_witness :
    computeLatestDod [] = none ∧
    computeLatestDod [(0 : ℚ), 5] = none ∧
    computeLatestDod [(1 : ℚ), 3] = some 200 := by
  refine ⟨(computeLatestDod_spec []).1 (by decide),
    (computeLatestDod_spec [(0 : ℚ), 5]).2.1 (by decide) (by decide), ?_⟩
  have h := (computeLatestDod_spec [(1 : ℚ), 3]).2.2 (by decide) (by decide)
  norm_num at h
  exact h

/-! ### C3 -/

/-- C3: for `start ≤ end` the daily series has exactly
`(end - start) + 1` entries, the entry at position `i` is the date
`start + i` paired with the count of matching records on that date, and
a date with no matching records carries an explicit zero — for every
view, the empty one included. -/
theorem dailySeries_spec (view : List Record) (start stop : Nat)
    (h : start ≤ stop) :
    (dailySeries view start stop).length = stop - start + 1 ∧
    (∀ i, i < stop - start + 1 →
      (dailySeries view start stop).getD i (0, 0) =
        (start + i, countOnDate view (start + i))) ∧
    (∀ d, (∀ r ∈ view, r.reported_date ≠ some d) → countOnDate view d = 0) := by
  refine ⟨?_, fun i hi => ?_, fun d hd => ?_⟩
  · simp only [dailySeries, List.length_map, List.length_range]
    omega
  · exact getD_map_range _ _ _ _ (by omega)
  · simp only [countOnDate, List.length_eq_zero, List.filter_eq_nil_iff,
      decide_eq_true_eq]
    exact hd

/-- C3, evaluated: a single-day range on the empty view yields the
one-entry zero-filled series. -/
theorem dailySeries_spec_witness :
    (dailySeries [] 3 3).length = 3 - 3 + 1 :=
  (dailySeries_spec [] 3 3 (by decide)).1

/-! ### C4 -/

/-- C4: for any window `w ≥ 1` the rolling mean has the input's length;
the value at position `i` is the mean of the trailing left-clipped
window `series[max(0, i-w+1) .. i]` (stated as the drop-then-take
slice); in particular position `0` holds `series[0]`; and the value at
position `i` is unchanged by any extension of the series past `i` (no
future-data leakage). -/
theorem rollingMean_spec (xs : List ℚ) (w : Nat) (hw : 1 ≤ w) :
    (rollingMean xs w).length = xs.length ∧
    (0 < xs.length → (rollingMean xs w).getD 0 0 = xs.getD 0 0) ∧
    (∀ i, i < xs.length →
      (rollingMean xs w).getD i 0 =
        meanQ ((xs.drop (i + 1 - w)).take (i + 1 - (i + 1 - w)))) ∧
    (∀ i, i < xs.length → ∀ ys,
      (rollingMean (xs ++ ys) w).getD i 0 = (rollingMean xs w).getD i 0) := by
  refine ⟨by simp [rollingMean], fun h0 => ?_, fun i hi => ?_, fun i hi ys => ?_⟩
  · rw [rollingMean, getD_map_range _ _ _ _ (by simpa using h0)]
    have hw0 : 0 + 1 - w = 0 := by omega
    rw [hw0, List.drop_zero]
    cases xs with
    | nil => simp at h0
    | cons a l => simp [meanQ]
  · rw [rollingMean, getD_map_range _ _ _ _ (by simpa using hi)]
    rw [List.drop_take]
  · rw [rollingMean, rollingMean,
      getD_map_range _ _ _ _ (by simp; omega),
      getD_map_range _ _ _ _ (by simpa using hi),
      List.take_append_of_le_length (by omega)]

/-- C4, evaluated at `[5, 9]` with window `7`: same length, head value
`5`, the position-1 window is the whole prefix, and appending `[100]`
does not change position `1`. -/
theorem rollingMean_spec_witness :
    (rollingMean [(5 : ℚ), 9] 7).length = ([(5 : ℚ), 9] : List ℚ).length ∧
    (rollingMean [(5 : ℚ), 9] 7).getD 0 0 = ([(5 : ℚ), 9] : List ℚ).getD 0 0 ∧
    (rollingMean ([(5 : ℚ), 9] ++ [100]) 7).getD 1 0 =
      (rollingMean [(5 : ℚ), 9] 7).getD 1 0 := by
  obtain ⟨h1, h2, -, h4⟩ := rollingMean_spec [(5 : ℚ), 9] 7 (by decide)
  exact ⟨h1, h2 (by decide), h4 1 (by decide) [100]⟩

/-! ### C5 -/

/-- C5: the anomaly flag at position `i` holds exactly when the count
strictly exceeds `mean + 2 * std`, both statistics computed once over
the whole series; and on a constant series (sample deviation `0`, with
the `std > 0` guard sending the degenerate short-series case to `0` as
well) no position is flagged. -/
theorem detectAnomalies_constant (xs : List ℚ) (c : ℚ)
    (hc : ∀ x ∈ xs, x = c) :
    (∀ i, anomalous xs i ↔
      ((xs.getD i 0 : ℚ) : ℝ) > (meanQ xs : ℝ) + 2 * sampleStd xs) ∧
    (∀ i, i < xs.length → ¬ anomalous xs i) := by
  refine ⟨fun i => Iff.rfl, fun i hi => ?_⟩
  have hne : xs ≠ [] := by
    intro h
    rw [h] at hi
    simp at hi
  have hmean : meanQ xs = c := meanQ_of_all_eq xs c hc hne
  have hvar : sampleVar xs = 0 := by
    rw [sampleVar]
    have hz : (xs.map (fun x => (x - meanQ xs) ^ 2)).sum = 0 := by
      rw [sum_of_all_eq _ 0 ?_, mul_zero]
      intro y hy
      obtain ⟨x, hx, rfl⟩ := List.mem_map.mp hy
      rw [hmean, hc x hx]
      ring
    rw [hz, zero_div]
  have hstd : sampleStd xs = 0 := by
    rw [sampleStd]
    split
    · rfl
    · rw [hvar]
      simp
  have hget : xs.getD i 0 = c := by
    rw [List.getD_eq_getElem _ _ hi]
    exact hc _ (xs.getElem_mem hi)
  rw [anomalous, anomalyThreshold, hstd, hmean, hget]
  simp

/-- C5, evaluated: the constant series `[3, 3, 3]` flags nothing. -/
theorem detectAnomalies_constant_witness :
    ¬ anomalous [(3 : ℚ), 3, 3] 0 :=
  (detectAnomalies_constant [(3 : ℚ), 3, 3] 3 (by decide)).2 0 (by decide)

/-! ### C7 -/

/-- C7: the multi-series table has exactly one series per selected
category (the builder's top-`n` states, in order); every series runs
over the identical continuous date axis `[start, end]`, with the same
length `(end - start) + 1` and the date `start + i` at position `i`,
holding the per-state daily count; a (state, date) cell with no
matching records is an explicit zero. -/
theorem topCategoriesOverTime_spec (view : List Record) (n start stop : Nat)
    (h : start ≤ stop) :
    ((topCategoriesOverTime view n start stop).map Prod.fst = topStates view n) ∧
    (∀ p ∈ topCategoriesOverTime view n start stop,
      p.2.length = stop - start + 1 ∧
      ∀ i, i < stop - start + 1 →
        p.2.getD i (0, 0) = (start + i, countStateDate view p.1 (start + i))) ∧
    (∀ s d, (∀ r ∈ view, ¬(r.state = some s ∧ r.reported_date = some d)) →
      countStateDate view s d = 0) := by
  refine ⟨?_, fun p hp => ?_, fun s d hd => ?_⟩
  · rw [topCategoriesOverTime, List.map_map]
    exact List.map_id _
  · obtain ⟨s, hs, rfl⟩ := List.mem_map.mp hp
    constructor
    · simp only [List.length_map, List.length_range]
      omega
    · intro i hi
      exact getD_map_range _ _ _ _ (by omega)
  · simp only [countStateDate, List.length_eq_zero, List.filter_eq_nil_iff,
      Bool.and_eq_true, decide_eq_true_eq, not_and]
    intro r hr h1 h2
    exact hd r hr ⟨h1, h2⟩

/-- C7, evaluated: on a one-record store the table lists exactly the
top states. -/
theorem topCategoriesOverTime_spec_witness :
    (topCategoriesOverTime [⟨some 5, some "A", some "M", some 30, some false⟩]
        5 4 6).map Prod.fst =
      topStates [⟨some 5, some "A", some "M", some 30, some false⟩] 5 :=
  (topCategoriesOverTime_spec _ 5 4 6 (by decide)).1

end DeathDashboard
